import Mathlib

/-!
Verification of the winetranslator execution-environment core.

Shallow embedding of the Python source under src/winetranslator:
  - utils/wine_utils.py          (launch_wine_application, _detect_audio_driver)
  - utils/controller_input.py    (ControllerInput.wait_for_input, _get_device_guid,
                                  get_default_mapping)
  - gui/controller_remap_dialog.py (_parse_mapping, _build_mapping_string, BUTTONS)
  - core/app_launcher.py         (AppLauncher.launch working-directory resolution)

Python strings are modelled as lists of characters; Python dicts are modelled
either as functions into Option (for lookup-only dicts) or as assignment lists
whose lookup returns the value of the latest assignment (observationally the
same as dict item assignment followed by item lookup).
-/

set_option maxHeartbeats 1000000

/-- A Python string, modelled as its list of characters. -/
abbrev PyStr := List Char

/-- Python str.split(sep) for a one-character separator: splits at every
occurrence of the separator; the empty string yields one empty field. -/
def pySplit (sep : Char) : PyStr → List PyStr
  | [] => [[]]
  | c :: cs =>
    match pySplit sep cs with
    | [] => [[]]
    | p :: ps => if c = sep then [] :: p :: ps else (c :: p) :: ps

/-- Python sep.join(fields) for a one-character separator. -/
def pyJoin (sep : Char) : List PyStr → PyStr
  | [] => []
  | [x] => x
  | x :: y :: ys => x ++ sep :: pyJoin sep (y :: ys)

/-- Python s.split(sep, 1) when the separator occurs: the part before the
first occurrence and the part after it. -/
def splitFirst (sep : Char) : PyStr → PyStr × PyStr
  | [] => ([], [])
  | c :: cs =>
    if c = sep then ([], cs)
    else
      let r := splitFirst sep cs
      (c :: r.1, r.2)

/-- The whitespace characters removed by Python str.strip / str.rstrip. -/
def isPySpace (c : Char) : Bool :=
  c = ' ' || c = '\t' || c = '\n' || c = '\r' || c = Char.ofNat 11 || c = Char.ofNat 12

/-- Python str.rstrip(): remove trailing whitespace. -/
def pyRStrip (l : PyStr) : PyStr := (l.reverse.dropWhile isPySpace).reverse

/-- Python str.strip(): remove leading and trailing whitespace. -/
def pyStrip (l : PyStr) : PyStr := pyRStrip (l.dropWhile isPySpace)

/-- A Python dict built by a sequence of item assignments, recorded in order.
Lookup returns the value of the latest assignment of the key, exactly as a
dict would after executing the same assignments. -/
def dictGet : List (PyStr × PyStr) → PyStr → Option PyStr
  | [], _ => none
  | kv :: rest, k =>
    match dictGet rest k with
    | some v => some v
    | none => if kv.1 = k then some kv.2 else none

/-- One dict item assignment d[k] = v (recorded at the end of the list). -/
def dictSet (d : List (PyStr × PyStr)) (k v : PyStr) : List (PyStr × PyStr) :=
  d ++ [(k, v)]

/-- The key order of ControllerRemapDialog.BUTTONS: the canonical button/axis
names, in the dict insertion order used by _build_mapping_string. -/
def BUTTONS : List PyStr :=
  ["a".toList, "b".toList, "x".toList, "y".toList,
   "back".toList, "start".toList, "guide".toList,
   "leftshoulder".toList, "rightshoulder".toList,
   "leftstick".toList, "rightstick".toList,
   "leftx".toList, "lefty".toList, "rightx".toList, "righty".toList,
   "lefttrigger".toList, "righttrigger".toList,
   "dpup".toList, "dpdown".toList, "dpleft".toList, "dpright".toList]

/-- The loop body of _parse_mapping: a field containing a colon is split
once on the first colon and recorded, both sides stripped; other fields are
skipped. -/
def parseStep (d : List (PyStr × PyStr)) (part : PyStr) : List (PyStr × PyStr) :=
  if ':' ∈ part then
    dictSet d (pyStrip (splitFirst ':' part).1) (pyStrip (splitFirst ':' part).2)
  else d

/-- ControllerRemapDialog._parse_mapping: split on commas, require at least
three fields, then read the fields after GUID and name as name:token pairs
(split once on the first colon, both sides stripped), later pairs
overwriting earlier ones. -/
def parse_mapping (s : PyStr) : List (PyStr × PyStr) :=
  if s = [] then []
  else if (pySplit ',' s).length < 3 then []
  else ((pySplit ',' s).drop 2).foldl parseStep []

/-- The raw token _build_mapping_string emits for one canonical name:
the custom mapping if present, else the default mapping if present. -/
def tokenOf (custom dflt : PyStr → Option PyStr) (b : PyStr) : Option PyStr :=
  match custom b with
  | some v => some v
  | none => dflt b

/-- The name:token field _build_mapping_string appends for one canonical
name, if any. -/
def buildEntry (custom dflt : PyStr → Option PyStr) (b : PyStr) : Option PyStr :=
  (tokenOf custom dflt b).map (fun v => b ++ ':' :: v)

/-- ControllerRemapDialog._build_mapping_string: GUID, device name, then one
name:token field per canonical name that has a custom or default token, all
joined with commas. -/
def build_mapping_string (guid name : PyStr) (custom dflt : PyStr → Option PyStr) : PyStr :=
  pyJoin ',' ([guid, name] ++ BUTTONS.filterMap (buildEntry custom dflt))

/-- The canonical names that get an entry in the built string, paired with
the raw token emitted for them (proof device for the round-trip theorem). -/
def entryPairs (custom dflt : PyStr → Option PyStr) : List (PyStr × PyStr) :=
  BUTTONS.filterMap (fun b => (tokenOf custom dflt b).map (fun v => (b, v)))

/-! ## Launch Environment Builder (utils/wine_utils.py) -/

/-- A process environment: a finite map from variable names to values,
modelled as a lookup function (os.environ.copy() gives the inherited map). -/
abbrev EnvMap := String → Option String

/-- One environment assignment env[k] = v. -/
def envSet (e : EnvMap) (k v : String) : EnvMap :=
  fun x => if x = k then some v else e x

/-- _detect_audio_driver: probe pactl, then pw-cli; a successful probe
selects the pulse driver, otherwise fall back to alsa.  A probe that times
out or whose tool is missing counts as unsuccessful. -/
def detect_audio_driver (pactlOk pwcliOk : Bool) : String :=
  if pactlOk then "pulse"
  else if pwcliOk then "pulse"
  else "alsa"

/-- The environment constructed by launch_wine_application: the inherited
environment, then WINEPREFIX, then the detected WINEAUDIODRIVER, then
WINEDLLOVERRIDES (appended to an existing value or set fresh), and finally
env_vars applied with dict.update (an empty env_vars list leaves the
environment unchanged, matching the falsy guard in the source). -/
def launch_wine_application_env (osEnv : EnvMap) (pfxPath : String)
    (pactlOk pwcliOk : Bool) (envVars : List (String × String)) : EnvMap :=
  let env1 := envSet osEnv "WINEPREFIX" pfxPath
  let env2 := envSet env1 "WINEAUDIODRIVER" (detect_audio_driver pactlOk pwcliOk)
  let env3 :=
    match env2 "WINEDLLOVERRIDES" with
    | some existing => envSet env2 "WINEDLLOVERRIDES" (existing ++ ";dsound=n,b")
    | none => envSet env2 "WINEDLLOVERRIDES" "dsound=n,b"
  envVars.foldl (fun e kv => envSet e kv.1 kv.2) env3

/-- Python str.isalnum on the ASCII range, as used by the log-name
sanitizer (all inputs of interest are ASCII). -/
def pyIsAlnum (c : Char) : Bool := c.isAlphanum

/-- The character set kept by the log-filename sanitizer:
c.isalnum() or c in (' ', '-', '_'). -/
def allowedLogChar (c : Char) : Bool :=
  pyIsAlnum c || c = ' ' || c = '-' || c = '_'

/-- The safe_name computation in launch_wine_application: keep only the
allowed characters, then str.rstrip() the result. -/
def sanitize_app_name (name : PyStr) : PyStr :=
  pyRStrip (name.filter allowedLogChar)

/-- Outcome of one run of launch_wine_application as far as the log-file
handle is concerned. -/
structure LaunchLogResult where
  raised : Bool
  logOpened : Bool
  logClosed : Bool
deriving DecidableEq

/-- The log-handle flow of launch_wine_application's try/except block:
open(log_file) may raise; the banner writes may raise; Popen may raise.
The except block only logs and re-raises; no path closes the handle, and
the success path stores the still-open handle on the process object. -/
def launch_wine_application_logflow (openOk bannerOk spawnOk : Bool) : LaunchLogResult :=
  if openOk = false then { raised := true, logOpened := false, logClosed := false }
  else if bannerOk = false then { raised := true, logOpened := true, logClosed := false }
  else if spawnOk = false then { raised := true, logOpened := true, logClosed := false }
  else { raised := false, logOpened := true, logClosed := false }

/-! ## Working-directory resolution (core/app_launcher.py, AppLauncher.launch) -/

/-- Index of the last occurrence of a character (Python str.rfind), if any. -/
def rfindChar (c : Char) (l : PyStr) : Option Nat :=
  match l.reverse.findIdx? (· = c) with
  | none => none
  | some j => some (l.length - 1 - j)

/-- Remove trailing copies of one character. -/
def rstripChar (c : Char) (l : PyStr) : PyStr :=
  (l.reverse.dropWhile (· = c)).reverse

/-- os.path.dirname (posixpath): everything up to and including the last
slash, with trailing slashes then stripped unless the head is all slashes;
no slash at all gives the empty string. -/
def dirname (p : PyStr) : PyStr :=
  match rfindChar '/' p with
  | none => []
  | some i =>
    let head := p.take (i + 1)
    if head ≠ [] ∧ ¬ (head.all (· = '/')) then rstripChar '/' head else head

/-- AppLauncher.launch working-directory resolution: a falsy (absent or
empty) configured directory, or one that is not an existing directory,
is replaced by the executable's own directory.  The filesystem is supplied
as the os.path.isdir oracle. -/
def resolve_working_dir (isDir : PyStr → Bool) (wd : Option PyStr) (exePath : PyStr) : PyStr :=
  match wd with
  | none => dirname exePath
  | some w => if w = [] then dirname exePath else if isDir w then w else dirname exePath

/-! ## Controller input wait loop (utils/controller_input.py) -/

/-- Event-type bit for button events (JS_EVENT_BUTTON). -/
def JS_EVENT_BUTTON : Nat := 1
/-- Event-type bit for axis events (JS_EVENT_AXIS). -/
def JS_EVENT_AXIS : Nat := 2
/-- Event-type bit marking device-initialization replay events (JS_EVENT_INIT). -/
def JS_EVENT_INIT : Nat := 128

/-- A decoded js_event record. -/
structure JsEvent where
  time : Nat
  value : Int
  etype : Nat
  number : Nat

/-- Interpret a 16-bit little-endian quantity as a signed value
(struct format character h). -/
def decodeS16 (r : Nat) : Int :=
  if r < 32768 then (r : Int) else (r : Int) - 65536

/-- struct.unpack for format IhBB on an 8-byte little-endian record. -/
def unpack_IhBB (b : List Nat) : JsEvent :=
  { time := b.getD 0 0 + 256 * b.getD 1 0 + 65536 * b.getD 2 0 + 16777216 * b.getD 3 0
    value := decodeS16 (b.getD 4 0 + 256 * b.getD 5 0)
    etype := b.getD 6 0
    number := b.getD 7 0 }

/-- The initial_axes dict: assignments in order, latest assignment wins. -/
def axesGet : List (Nat × Int) → Nat → Option Int
  | [], _ => none
  | kv :: rest, k =>
    match axesGet rest k with
    | some v => some v
    | none => if kv.1 = k then some kv.2 else none

/-- One assignment initial_axes[k] = v. -/
def axesSet (d : List (Nat × Int)) (k : Nat) (v : Int) : List (Nat × Int) :=
  d ++ [(k, v)]

/-- The result wait_for_input can return: ('button', number) or
('axis', axisString). -/
inductive WaitRes where
  | button (n : Nat)
  | axis (s : PyStr)
deriving DecidableEq

/-- axis_threshold in wait_for_input. -/
def axis_threshold : Nat := 16000

/-- Decimal rendering of a number, as Python f-string interpolation does. -/
def pyFmtNat (n : Nat) : PyStr := (Nat.repr n).toList

/-- What one iteration of the wait_for_input loop body does with one read
result: either return from the method or continue with updated
initial_axes. -/
inductive StepRes where
  | ret (r : Option WaitRes)
  | cont (axes : List (Nat × Int))

/-- One iteration of the wait_for_input loop body on an already-decoded
event.  Init events only seed initial axis positions; a button event
returns on a press transition (value == 1); an axis event returns once its
value departs from its recorded initial position (0 for an axis seen for
the first time, which is simultaneously recorded) by more than
axis_threshold, with the direction suffix chosen by comparing against that
initial position. -/
def waitStepDecoded (axes : List (Nat × Int)) (e : JsEvent) : StepRes :=
  if e.etype &&& JS_EVENT_INIT ≠ 0 then
    .cont (if e.etype &&& JS_EVENT_AXIS ≠ 0 then axesSet axes e.number e.value else axes)
  else if e.etype = JS_EVENT_BUTTON ∧ e.value = 1 then
    .ret (some (.button e.number))
  else if e.etype = JS_EVENT_AXIS then
    match axesGet axes e.number with
    | some v0 =>
      if axis_threshold < (e.value - v0).natAbs then
        .ret (some (.axis (('a' :: pyFmtNat e.number) ++ [if e.value < v0 then '-' else '+'])))
      else .cont axes
    | none =>
      if axis_threshold < (e.value - 0).natAbs then
        .ret (some (.axis (('a' :: pyFmtNat e.number) ++ [if e.value < 0 then '-' else '+'])))
      else .cont (axesSet axes e.number e.value)
  else .cont axes

/-- The length guards around the decoded step: a short read breaks out of
the loop (returning None); an over-long read would make struct.unpack
raise, which the except block turns into the same break (read(8) never
produces one). -/
def waitStep (axes : List (Nat × Int)) (ev : List Nat) : StepRes :=
  if ev.length < 8 then .ret none
  else if 8 < ev.length then .ret none
  else waitStepDecoded axes (unpack_IhBB ev)

/-- The wait_for_input loop: fuel counts how many more iterations the
wall-clock bound admits (0 means the while condition fails: timeout); the
list holds the successive read results the device delivers before the
bound elapses. -/
def waitLoop : List (Nat × Int) → Nat → List (List Nat) → Option WaitRes
  | _, 0, _ => none
  | _, _ + 1, [] => none
  | axes, fuel + 1, ev :: rest =>
    match waitStep axes ev with
    | .ret r => r
    | .cont axes2 => waitLoop axes2 fuel rest

/-- The session state of a ControllerInput: whether device_fd is open. -/
structure CISession where
  fdOpen : Bool
deriving DecidableEq

/-- ControllerInput.wait_for_input: opens the device if it is not open yet,
runs the read loop with a fresh initial_axes dict, and returns without ever
closing the device. -/
def wait_for_input (s : CISession) (fuel : Nat) (reads : List (List Nat)) :
    Option WaitRes × CISession :=
  let s2 := if s.fdOpen then s else { fdOpen := true }
  (waitLoop [] fuel reads, s2)

/-- An axis js_event record for axis n with signed value v, as the kernel
would deliver it (struct.pack of format IhBB). -/
def mkAxisEvent (ts n : Nat) (v : Int) : List Nat :=
  [ts % 256, ts / 256 % 256, ts / 65536 % 256, ts / 16777216 % 256,
   (v % 65536).toNat % 256, (v % 65536).toNat / 256, 2, n]

/-! ## Device GUID (ControllerInput._get_device_guid) -/

/-- MD5 chaining state: four 32-bit words. -/
structure MD5St where
  a : Nat
  b : Nat
  c : Nat
  d : Nat

/-- 32-bit addition. -/
def w32add (x y : Nat) : Nat := (x + y) % 4294967296

/-- 32-bit left rotation. -/
def rotl32 (x s : Nat) : Nat :=
  ((x <<< s) % 4294967296) ||| (x >>> (32 - s))

/-- MD5 round function F. -/
def md5F (b c d : Nat) : Nat := (b &&& c) ||| ((b ^^^ 4294967295) &&& d)
/-- MD5 round function G. -/
def md5G (b c d : Nat) : Nat := (b &&& d) ||| (c &&& (d ^^^ 4294967295))
/-- MD5 round function H. -/
def md5H (b c d : Nat) : Nat := b ^^^ c ^^^ d
/-- MD5 round function I. -/
def md5I (b c d : Nat) : Nat := c ^^^ (b ||| (d ^^^ 4294967295))

/-- The MD5 sine-derived constant table. -/
def md5K : List Nat :=
  [0xd76aa478, 0xe8c7b756, 0x242070db, 0xc1bdceee,
   0xf57c0faf, 0x4787c62a, 0xa8304613, 0xfd469501,
   0x698098d8, 0x8b44f7af, 0xffff5bb1, 0x895cd7be,
   0x6b901122, 0xfd987193, 0xa679438e, 0x49b40821,
   0xf61e2562, 0xc040b340, 0x265e5a51, 0xe9b6c7aa,
   0xd62f105d, 0x02441453, 0xd8a1e681, 0xe7d3fbc8,
   0x21e1cde6, 0xc33707d6, 0xf4d50d87, 0x455a14ed,
   0xa9e3e905, 0xfcefa3f8, 0x676f02d9, 0x8d2a4c8a,
   0xfffa3942, 0x8771f681, 0x6d9d6122, 0xfde5380c,
   0xa4beea44, 0x4bdecfa9, 0xf6bb4b60, 0xbebfbc70,
   0x289b7ec6, 0xeaa127fa, 0xd4ef3085, 0x04881d05,
   0xd9d4d039, 0xe6db99e5, 0x1fa27cf8, 0xc4ac5665,
   0xf4292244, 0x432aff97, 0xab9423a7, 0xfc93a039,
   0x655b59c3, 0x8f0ccc92, 0xffeff47d, 0x85845dd1,
   0x6fa87e4f, 0xfe2ce6e0, 0xa3014314, 0x4e0811a1,
   0xf7537e82, 0xbd3af235, 0x2ad7d2bb, 0xeb86d391]

/-- The MD5 per-round shift table. -/
def md5S : List Nat :=
  [7, 12, 17, 22, 7, 12, 17, 22, 7, 12, 17, 22, 7, 12, 17, 22,
   5, 9, 14, 20, 5, 9, 14, 20, 5, 9, 14, 20, 5, 9, 14, 20,
   4, 11, 16, 23, 4, 11, 16, 23, 4, 11, 16, 23, 4, 11, 16, 23,
   6, 10, 15, 21, 6, 10, 15, 21, 6, 10, 15, 21, 6, 10, 15, 21]

/-- Little-endian 32-bit word j of a 64-byte block. -/
def leWord (block : List Nat) (j : Nat) : Nat :=
  block.getD (4 * j) 0 + 256 * block.getD (4 * j + 1) 0
    + 65536 * block.getD (4 * j + 2) 0 + 16777216 * block.getD (4 * j + 3) 0

/-- One MD5 round. -/
def md5round (M : Nat → Nat) (st : MD5St) (i : Nat) : MD5St :=
  let f :=
    if i < 16 then md5F st.b st.c st.d
    else if i < 32 then md5G st.b st.c st.d
    else if i < 48 then md5H st.b st.c st.d
    else md5I st.b st.c st.d
  let g :=
    if i < 16 then i
    else if i < 32 then (5 * i + 1) % 16
    else if i < 48 then (3 * i + 5) % 16
    else (7 * i) % 16
  let tmp := w32add (w32add (w32add st.a f) (md5K.getD i 0)) (M g)
  ⟨st.d, w32add st.b (rotl32 tmp (md5S.getD i 0)), st.b, st.c⟩

/-- MD5 compression of one 64-byte block. -/
def md5compress (st : MD5St) (block : List Nat) : MD5St :=
  let r := (List.range 64).foldl (md5round (leWord block)) st
  ⟨w32add st.a r.a, w32add st.b r.b, w32add st.c r.c, w32add st.d r.d⟩

/-- MD5 padding: a 0x80 byte, zeros up to 56 mod 64, then the bit length
as a 64-bit little-endian quantity. -/
def md5pad (msg : List Nat) : List Nat :=
  let bitLen := (8 * msg.length) % 18446744073709551616
  let zeros := (120 - (msg.length + 1) % 64) % 64
  msg ++ 128 :: List.replicate zeros 0 ++
    [bitLen % 256, bitLen / 256 % 256, bitLen / 65536 % 256, bitLen / 16777216 % 256,
     bitLen / 4294967296 % 256, bitLen / 1099511627776 % 256,
     bitLen / 281474976710656 % 256, bitLen / 72057594037927936 % 256]

/-- Fold MD5 compression over the 64-byte blocks of a padded message. -/
def md5blocks (st : MD5St) (l : List Nat) : MD5St :=
  if h : l = [] then st
  else md5blocks (md5compress st (l.take 64)) (l.drop 64)
termination_by l.length
decreasing_by
  rw [List.length_drop]
  have hlen : l.length ≠ 0 := fun hl => h (List.length_eq_zero.mp hl)
  omega

/-- The MD5 initialization vector. -/
def md5init : MD5St := ⟨0x67452301, 0xefcdab89, 0x98badcfe, 0x10325476⟩

/-- The four bytes of a 32-bit word, little-endian. -/
def wordBytes (w : Nat) : List Nat :=
  [w % 256, w / 256 % 256, w / 65536 % 256, w / 16777216 % 256]

/-- The 16-byte MD5 digest of a byte string. -/
def md5 (msg : List Nat) : List Nat :=
  let st := md5blocks md5init (md5pad msg)
  wordBytes st.a ++ wordBytes st.b ++ wordBytes st.c ++ wordBytes st.d

/-- One lowercase hexadecimal digit. -/
def hexDigit (n : Nat) : Char :=
  if n % 16 < 10 then Char.ofNat (48 + n % 16) else Char.ofNat (87 + n % 16)

/-- The two lowercase hex characters of one byte (hexdigest renders each
digest byte with %02x; digest bytes are below 256). -/
def byteHex (b : Nat) : PyStr := [hexDigit (b / 16), hexDigit (b % 16)]

/-- Lowercase hex rendering of a byte string. -/
def bytesToHex : List Nat → PyStr
  | [] => []
  | b :: t => byteHex b ++ bytesToHex t

/-- hashlib.md5(data).hexdigest() as a character list. -/
def md5hexdigest (msg : List Nat) : PyStr := bytesToHex (md5 msg)

/-- The GUID fallback in _get_device_guid: the MD5 hexdigest of the device
name (given here as its encoded bytes), truncated to 32 characters. -/
def fallback_guid (nameBytes : List Nat) : PyStr := (md5hexdigest nameBytes).take 32

/-- Python format spec 0>4: pad on the left with zeros to width 4. -/
def padZero4 (s : PyStr) : PyStr :=
  if s.length < 4 then List.replicate (4 - s.length) '0' ++ s else s

/-- Lowercase-hex-digit test. -/
def isHexDigitChar (c : Char) : Bool :=
  c.isDigit || ('a' ≤ c && c ≤ 'f')

/-- ControllerInput._get_device_guid: with readable vendor/product sysfs
ids, the fixed SDL2 template; when reading them raises (metadata
unavailable), fall back to the hash of the device name. -/
def get_device_guid : Option (PyStr × PyStr) → List Nat → PyStr
  | some vp, _ =>
    "03000000".toList ++ padZero4 vp.1 ++ "0000".toList ++ padZero4 vp.2
      ++ "000000000000".toList
  | none, nameBytes => fallback_guid nameBytes

example : pySplit ',' "a,b2,".toList = ["a".toList, "b2".toList, []] := by decide
example : splitFirst ':' "a:b2:x".toList = ("a".toList, "b2:x".toList) := by decide
example : pyStrip "  a1 ".toList = "a1".toList := by decide
example :
    build_mapping_string "g".toList "Test Pad".toList
      (fun b => if b = "a".toList then some "b2".toList else none) (fun _ => none)
    = "g,Test Pad,a:b2".toList := by decide
example :
    dictGet (parse_mapping "g,Test Pad,a:b2,a:b7".toList) "a".toList
    = some "b7".toList := by decide

/-! ## Helper lemmas: split/join/strip/dict -/

theorem pySplit_ne_nil (sep : Char) (l : PyStr) : pySplit sep l ≠ [] := by
  induction l with
  | nil => simp [pySplit]
  | cons c cs ih =>
    simp only [pySplit]
    cases h : pySplit sep cs with
    | nil => exact absurd h ih
    | cons p ps => by_cases hc : c = sep <;> simp [hc]

theorem pySplit_of_not_mem (sep : Char) :
    ∀ l : PyStr, sep ∉ l → pySplit sep l = [l] := by
  intro l
  induction l with
  | nil => intro _; rfl
  | cons c cs ih =>
    intro h
    have hc : ¬ c = sep := fun hh => h (by simp [hh])
    have hcs : sep ∉ cs := fun hh => h (List.mem_cons_of_mem _ hh)
    simp only [pySplit, ih hcs]
    simp [hc]

theorem pySplit_append_sep (sep : Char) :
    ∀ x rest : PyStr, sep ∉ x →
      pySplit sep (x ++ sep :: rest) = x :: pySplit sep rest := by
  intro x
  induction x with
  | nil =>
    intro rest _
    cases h : pySplit sep rest with
    | nil => exact absurd h (pySplit_ne_nil sep rest)
    | cons p ps => simp [pySplit, h]
  | cons c cs ih =>
    intro rest h
    have hc : ¬ c = sep := fun hh => h (by simp [hh])
    have hcs : sep ∉ cs := fun hh => h (List.mem_cons_of_mem _ hh)
    have hrec := ih rest hcs
    simp only [List.cons_append, pySplit, List.append_eq]
    rw [hrec]
    simp [hc]

theorem pySplit_pyJoin (sep : Char) :
    ∀ xs : List PyStr, xs ≠ [] → (∀ x ∈ xs, sep ∉ x) →
      pySplit sep (pyJoin sep xs) = xs := by
  intro xs
  induction xs with
  | nil => intro h; exact absurd rfl h
  | cons x t ih =>
    intro _ hall
    cases t with
    | nil => exact pySplit_of_not_mem sep x (hall x (by simp))
    | cons y ys =>
      have hx : sep ∉ x := hall x (by simp)
      have ht := ih (by simp) (fun z hz => hall z (List.mem_cons_of_mem _ hz))
      simp only [pyJoin, pySplit_append_sep sep x _ hx, ht]

theorem splitFirst_append (sep : Char) :
    ∀ k v : PyStr, sep ∉ k → splitFirst sep (k ++ sep :: v) = (k, v) := by
  intro k
  induction k with
  | nil => intro v _; simp [splitFirst]
  | cons c cs ih =>
    intro v h
    have hc : ¬ c = sep := fun hh => h (by simp [hh])
    have hcs : sep ∉ cs := fun hh => h (List.mem_cons_of_mem _ hh)
    simp [splitFirst, hc, ih v hcs]

theorem dictGet_not_mem (d : List (PyStr × PyStr)) (k : PyStr)
    (h : k ∉ d.map Prod.fst) : dictGet d k = none := by
  induction d with
  | nil => rfl
  | cons kv rest ih =>
    simp only [List.map_cons, List.mem_cons, not_or] at h
    have hk : ¬ kv.1 = k := fun hh => h.1 hh.symm
    simp [dictGet, ih h.2, hk]

theorem dictGet_mem_nodup (d : List (PyStr × PyStr)) (k v : PyStr)
    (hnd : (d.map Prod.fst).Nodup) (hmem : (k, v) ∈ d) : dictGet d k = some v := by
  induction d with
  | nil => cases hmem
  | cons kv rest ih =>
    simp only [List.map_cons, List.nodup_cons] at hnd
    rcases List.mem_cons.mp hmem with heq | hrest
    · have hk : kv.1 = k := by rw [← heq]
      have hkn : k ∉ rest.map Prod.fst := hk ▸ hnd.1
      have hv : kv.2 = v := by rw [← heq]
      simp [dictGet, dictGet_not_mem rest k hkn, hk, hv]
    · simp [dictGet, ih hnd.2 hrest]

theorem filterMap_buildEntry (custom dflt : PyStr → Option PyStr) :
    ∀ l : List PyStr,
      l.filterMap (buildEntry custom dflt)
        = (l.filterMap (fun b => (tokenOf custom dflt b).map (fun v => (b, v)))).map
            (fun p => p.1 ++ ':' :: p.2) := by
  intro l
  induction l with
  | nil => rfl
  | cons b t ih =>
    cases h : tokenOf custom dflt b <;>
      simp [List.filterMap_cons, buildEntry, h, ih]

theorem filterMap_pairs_fst (f : PyStr → Option PyStr) :
    ∀ l : List PyStr,
      (l.filterMap (fun b => (f b).map (fun v => (b, v)))).map Prod.fst
        = l.filter (fun b => (f b).isSome) := by
  intro l
  induction l with
  | nil => rfl
  | cons b t ih =>
    cases h : f b <;> simp [List.filterMap_cons, List.filter_cons, h, ih]

theorem mem_entryPairs (custom dflt : PyStr → Option PyStr) (p : PyStr × PyStr)
    (h : p ∈ entryPairs custom dflt) :
    p.1 ∈ BUTTONS ∧ tokenOf custom dflt p.1 = some p.2 := by
  unfold entryPairs at h
  rw [List.mem_filterMap] at h
  obtain ⟨a, ha, hfa⟩ := h
  cases hfb : tokenOf custom dflt a with
  | none => rw [hfb] at hfa; exact Option.noConfusion hfa
  | some v =>
    rw [hfb] at hfa
    have hpa : (a, v) = p := Option.some.inj hfa
    rw [← hpa]
    exact ⟨ha, hfb⟩

theorem foldl_parseStep_render :
    ∀ (es : List (PyStr × PyStr)) (d0 : List (PyStr × PyStr)),
      (∀ p ∈ es, ':' ∉ p.1) →
      (es.map (fun p => p.1 ++ ':' :: p.2)).foldl parseStep d0
        = d0 ++ es.map (fun p => (pyStrip p.1, pyStrip p.2)) := by
  intro es
  induction es with
  | nil => intro d0 _; simp
  | cons p t ih =>
    intro d0 h
    have hp : ':' ∉ p.1 := h p (by simp)
    have hc : ':' ∈ p.1 ++ ':' :: p.2 := List.mem_append_right _ (by simp)
    have hstep : parseStep d0 (p.1 ++ ':' :: p.2)
        = d0 ++ [(pyStrip p.1, pyStrip p.2)] := by
      simp [parseStep, hc, splitFirst_append ':' p.1 p.2 hp, dictSet]
    simp only [List.map_cons, List.foldl_cons, hstep]
    rw [ih _ (fun q hq => h q (List.mem_cons_of_mem _ hq))]
    simp

theorem parse_build_eq (guid name : PyStr) (custom dflt : PyStr → Option PyStr)
    (hg : ',' ∉ guid) (hn : ',' ∉ name)
    (hv : ∀ p ∈ entryPairs custom dflt, ',' ∉ p.2) :
    parse_mapping (build_mapping_string guid name custom dflt)
      = (entryPairs custom dflt).map (fun p => (pyStrip p.1, pyStrip p.2)) := by
  have hBall : ∀ b ∈ BUTTONS, ',' ∉ b ∧ ':' ∉ b := by decide
  have hrender := filterMap_buildEntry custom dflt BUTTONS
  have hcf : ∀ x ∈ [guid, name] ++ (entryPairs custom dflt).map (fun p => p.1 ++ ':' :: p.2),
      ',' ∉ x := by
    intro x hx
    rcases List.mem_append.mp hx with hx2 | hx2
    · rcases List.mem_cons.mp hx2 with h2 | h2
      · rw [h2]; exact hg
      · rcases List.mem_cons.mp h2 with h3 | h3
        · rw [h3]; exact hn
        · cases h3
    · rw [List.mem_map] at hx2
      obtain ⟨p, hp, hpx⟩ := hx2
      have hmem := mem_entryPairs custom dflt p hp
      rw [← hpx]
      intro hcontra
      rcases List.mem_append.mp hcontra with h4 | h4
      · exact (hBall p.1 hmem.1).1 h4
      · rcases List.mem_cons.mp h4 with h5 | h5
        · cases h5
        · exact hv p hp h5
  have hsplit := pySplit_pyJoin ','
      ([guid, name] ++ (entryPairs custom dflt).map (fun p => p.1 ++ ':' :: p.2))
      (by simp) hcf
  have hbuild : build_mapping_string guid name custom dflt
      = pyJoin ',' ([guid, name] ++ (entryPairs custom dflt).map (fun p => p.1 ++ ':' :: p.2)) := by
    unfold build_mapping_string entryPairs
    rw [hrender]
  have hs_ne : pyJoin ','
      ([guid, name] ++ (entryPairs custom dflt).map (fun p => p.1 ++ ':' :: p.2)) ≠ [] := by
    intro h0
    rw [h0] at hsplit
    simp [pySplit] at hsplit
  rw [hbuild]
  unfold parse_mapping
  rw [if_neg hs_ne, hsplit]
  cases hE : entryPairs custom dflt with
  | nil => simp
  | cons p t =>
    have hlen : ¬ ([guid, name] ++ ((p :: t).map (fun q => q.1 ++ ':' :: q.2))).length < 3 := by
      simp
    rw [if_neg hlen]
    have hdrop : ([guid, name] ++ ((p :: t).map (fun q => q.1 ++ ':' :: q.2))).drop 2
        = (p :: t).map (fun q => q.1 ++ ':' :: q.2) := by
      simp
    rw [hdrop]
    have hcol : ∀ q ∈ p :: t, ':' ∉ q.1 := by
      intro q hq
      have := mem_entryPairs custom dflt q (hE ▸ hq)
      exact (hBall q.1 this.1).2
    rw [foldl_parseStep_render (p :: t) [] hcol]
    simp

/-- Claim C4: round-trip of the mapping-string codec.  For every button
mapping whose raw tokens are comma-free and strip-invariant (as every
bN / aN+ / aN- / hD.M token is) and whose GUID and device name are
comma-free, parsing the built string returns, for every canonical name with
an explicit custom override, exactly that override, and a canonical name
with neither a custom override nor a default token is absent both from the
built fields and from the parsed dictionary. -/
theorem parse_build_roundtrip (guid name : PyStr) (custom dflt : PyStr → Option PyStr)
    (hg : ',' ∉ guid) (hn : ',' ∉ name)
    (hcustom : ∀ b ∈ BUTTONS, ∀ v, custom b = some v → ',' ∉ v ∧ pyStrip v = v)
    (hdflt : ∀ b ∈ BUTTONS, ∀ v, custom b = none → dflt b = some v → ',' ∉ v) :
    (∀ b ∈ BUTTONS, ∀ v, custom b = some v →
        dictGet (parse_mapping (build_mapping_string guid name custom dflt)) b = some v)
    ∧ (∀ b ∈ BUTTONS, custom b = none → dflt b = none →
        buildEntry custom dflt b = none
        ∧ dictGet (parse_mapping (build_mapping_string guid name custom dflt)) b = none) := by
  have hBall : ∀ b ∈ BUTTONS, ',' ∉ b ∧ ':' ∉ b ∧ pyStrip b = b := by decide
  have hnd : BUTTONS.Nodup := by decide
  have hv2 : ∀ p ∈ entryPairs custom dflt, ',' ∉ p.2 := by
    intro p hp
    obtain ⟨hb, htok⟩ := mem_entryPairs custom dflt p hp
    cases hcb : custom p.1 with
    | some v =>
      have : v = p.2 := by
        unfold tokenOf at htok; rw [hcb] at htok; exact Option.some.inj htok
      exact this ▸ (hcustom p.1 hb v hcb).1
    | none =>
      have : dflt p.1 = some p.2 := by
        unfold tokenOf at htok; rw [hcb] at htok; exact htok
      exact hdflt p.1 hb p.2 hcb this
  have heq := parse_build_eq guid name custom dflt hg hn hv2
  have hkeys : ((entryPairs custom dflt).map (fun p => (pyStrip p.1, pyStrip p.2))).map Prod.fst
      = BUTTONS.filter (fun b => (tokenOf custom dflt b).isSome) := by
    rw [List.map_map]
    have hcg : (entryPairs custom dflt).map (Prod.fst ∘ fun p => (pyStrip p.1, pyStrip p.2))
        = (entryPairs custom dflt).map Prod.fst := by
      apply List.map_congr_left
      intro p hp
      have := (hBall p.1 (mem_entryPairs custom dflt p hp).1).2.2
      simp [this]
    rw [hcg]
    exact filterMap_pairs_fst (tokenOf custom dflt) BUTTONS
  constructor
  · intro b hb v hcv
    have htok : tokenOf custom dflt b = some v := by unfold tokenOf; rw [hcv]
    have hpair : (b, v) ∈ entryPairs custom dflt := by
      unfold entryPairs
      rw [List.mem_filterMap]
      exact ⟨b, hb, by rw [htok]; rfl⟩
    have hsb : pyStrip b = b := (hBall b hb).2.2
    have hsv : pyStrip v = v := (hcustom b hb v hcv).2
    have hmem2 : (b, v) ∈ (entryPairs custom dflt).map (fun p => (pyStrip p.1, pyStrip p.2)) :=
      List.mem_map.mpr ⟨(b, v), hpair, by simp [hsb, hsv]⟩
    have hndk : (((entryPairs custom dflt).map (fun p => (pyStrip p.1, pyStrip p.2))).map
        Prod.fst).Nodup := by
      rw [hkeys]; exact hnd.filter _
    rw [heq]
    exact dictGet_mem_nodup _ b v hndk hmem2
  · intro b hb hc hd
    constructor
    · simp [buildEntry, tokenOf, hc, hd]
    · rw [heq]
      apply dictGet_not_mem
      rw [hkeys]
      intro hmem
      have := (List.mem_filter.mp hmem).2
      simp [tokenOf, hc, hd] at this

/-- Witness for C4 at a concrete mapping: custom override a maps to b2, no
other overrides, empty default layout. -/
theorem parse_build_roundtrip_witness :
    dictGet (parse_mapping (build_mapping_string "g".toList "Test Pad".toList
        (fun b => if b = "a".toList then some "b2".toList else none) (fun _ => none)))
      "a".toList = some "b2".toList
    ∧ dictGet (parse_mapping (build_mapping_string "g".toList "Test Pad".toList
        (fun b => if b = "a".toList then some "b2".toList else none) (fun _ => none)))
      "dpup".toList = none := by
  have h := parse_build_roundtrip "g".toList "Test Pad".toList
      (fun b => if b = "a".toList then some "b2".toList else none) (fun _ => none)
      (by decide) (by decide)
      (by
        intro b _ v hv
        have hv2 : (if b = "a".toList then some "b2".toList else none) = some v := hv
        by_cases hba : b = "a".toList
        · rw [if_pos hba] at hv2
          rw [← Option.some.inj hv2]
          exact ⟨by decide, by decide⟩
        · rw [if_neg hba] at hv2
          exact Option.noConfusion hv2)
      (by intro b _ v _ hd; exact Option.noConfusion hd)
  exact ⟨h.1 "a".toList (by decide) "b2".toList (by simp),
    (h.2 "dpup".toList (by decide) (by decide) rfl).2⟩

/-! ## Launch environment theorems -/

theorem foldl_envSet_not_mem :
    ∀ (envVars : List (String × String)) (e : EnvMap) (k : String),
      k ∉ envVars.map Prod.fst →
      envVars.foldl (fun e kv => envSet e kv.1 kv.2) e k = e k := by
  intro envVars
  induction envVars with
  | nil => intro e k _; rfl
  | cons kv rest ih =>
    intro e k hk
    simp only [List.map_cons, List.mem_cons, not_or] at hk
    rw [List.foldl_cons, ih _ k hk.2]
    simp only [envSet]
    rw [if_neg hk.1]

theorem foldl_envSet_mem :
    ∀ (envVars : List (String × String)) (e : EnvMap) (k v : String),
      (envVars.map Prod.fst).Nodup → (k, v) ∈ envVars →
      envVars.foldl (fun e kv => envSet e kv.1 kv.2) e k = some v := by
  intro envVars
  induction envVars with
  | nil => intro e k v _ hmem; cases hmem
  | cons kv rest ih =>
    intro e k v hnd hmem
    simp only [List.map_cons, List.nodup_cons] at hnd
    rcases List.mem_cons.mp hmem with heq | hrest
    · have hk : kv.1 = k := by rw [← heq]
      have hv : kv.2 = v := by rw [← heq]
      rw [List.foldl_cons, foldl_envSet_not_mem rest _ k (hk ▸ hnd.1)]
      simp [envSet, hk, hv]
    · rw [List.foldl_cons]
      exact ih _ k v hnd.2 hrest

/-- Claim C1: launch_wine_application builds the environment in precedence
order (inherited, then WINEPREFIX, then the detected WINEAUDIODRIVER, then
WINEDLLOVERRIDES appended-or-set, then env_vars last): every key of the
caller's env_vars ends with the override value — even when it was set
internally — while a non-overridden WINEPREFIX / WINEAUDIODRIVER /
WINEDLLOVERRIDES key carries the internally computed value and any other
non-overridden key keeps its inherited value. -/
theorem launch_env_precedence (osEnv : EnvMap) (pfxPath : String)
    (pactlOk pwcliOk : Bool) (envVars : List (String × String))
    (hnd : (envVars.map Prod.fst).Nodup) :
    (∀ k v, (k, v) ∈ envVars →
        launch_wine_application_env osEnv pfxPath pactlOk pwcliOk envVars k = some v)
    ∧ (∀ k, k ∉ envVars.map Prod.fst →
        launch_wine_application_env osEnv pfxPath pactlOk pwcliOk envVars k =
          if k = "WINEDLLOVERRIDES" then
            some (match osEnv "WINEDLLOVERRIDES" with
                  | some existing => existing ++ ";dsound=n,b"
                  | none => "dsound=n,b")
          else if k = "WINEAUDIODRIVER" then some (detect_audio_driver pactlOk pwcliOk)
          else if k = "WINEPREFIX" then some pfxPath
          else osEnv k) := by
  constructor
  · intro k v hmem
    exact foldl_envSet_mem envVars _ k v hnd hmem
  · intro k hk
    simp only [launch_wine_application_env]
    rw [foldl_envSet_not_mem envVars _ k hk]
    have hdll : envSet (envSet osEnv "WINEPREFIX" pfxPath) "WINEAUDIODRIVER"
        (detect_audio_driver pactlOk pwcliOk) "WINEDLLOVERRIDES" = osEnv "WINEDLLOVERRIDES" := by
      simp [envSet]
    by_cases h1 : k = "WINEDLLOVERRIDES"
    · rw [if_pos h1]
      cases hos : osEnv "WINEDLLOVERRIDES" <;>
        · rw [hdll, hos]
          simp [envSet, h1]
    · rw [if_neg h1]
      cases hos : osEnv "WINEDLLOVERRIDES" <;>
        · rw [hdll, hos]
          by_cases h2 : k = "WINEAUDIODRIVER" <;>
            by_cases h3 : k = "WINEPREFIX" <;>
              simp [envSet, h1, h2, h3]

/-- Witness for C1: an env_vars entry for WINEAUDIODRIVER (a key the
builder sets internally) wins in the final environment. -/
theorem launch_env_precedence_witness :
    launch_wine_application_env (fun _ => none) "/p" true false
      [("WINEAUDIODRIVER", "custom")] "WINEAUDIODRIVER" = some "custom" :=
  (launch_env_precedence (fun _ => none) "/p" true false
      [("WINEAUDIODRIVER", "custom")] (by simp)).1
    "WINEAUDIODRIVER" "custom" (by simp)

/-! ## Working-directory resolution theorems -/

/-- Claim C5: a falsy (absent or empty) or non-existing configured working
directory resolves to the executable's parent directory; an existing,
non-empty configured directory is used unchanged. -/
theorem resolve_working_dir_spec (isDir : PyStr → Bool) (wd : Option PyStr) (exePath : PyStr) :
    ((wd = none ∨ wd = some [] ∨ (∀ w, wd = some w → isDir w = false)) →
      resolve_working_dir isDir wd exePath = dirname exePath)
    ∧ (∀ w, wd = some w → w ≠ [] → isDir w = true →
      resolve_working_dir isDir wd exePath = w) := by
  constructor
  · intro h
    cases wd with
    | none => rfl
    | some w =>
      rcases h with h | h | h
      · exact Option.noConfusion h
      · have hw : w = [] := Option.some.inj h
        simp [resolve_working_dir, hw]
      · have hw := h w rfl
        by_cases hnil : w = []
        · simp [resolve_working_dir, hnil]
        · simp [resolve_working_dir, hnil, hw]
  · intro w hw hne hdir
    subst hw
    simp [resolve_working_dir, hne, hdir]

/-- Witness for C5: a configured directory that the filesystem oracle
rejects resolves to the parent of the executable; an accepted one is kept. -/
theorem resolve_working_dir_spec_witness :
    resolve_working_dir (fun _ => false) (some "/missing".toList) "/games/app.exe".toList
      = "/games".toList
    ∧ resolve_working_dir (fun _ => true) (some "/opt/data".toList) "/games/app.exe".toList
      = "/opt/data".toList := by
  constructor
  · have h := (resolve_working_dir_spec (fun _ => false)
        (some "/missing".toList) "/games/app.exe".toList).1
      (Or.inr (Or.inr (fun w _ => rfl)))
    exact h.trans (by decide)
  · exact (resolve_working_dir_spec (fun _ => true)
        (some "/opt/data".toList) "/games/app.exe".toList).2
      "/opt/data".toList rfl (by decide) rfl

/-! ## Log-filename sanitizer theorems -/

/-- Claim C9 counterexample: the sanitizer is not the pure character filter
the claim describes — a trailing space survives the filter (space is in the
allowed set) but the final rstrip removes it, so on the input consisting of
the characters of the word sequence given below the output differs from the
claimed keep-exactly filter. -/
theorem sanitize_keeps_exactly_false :
    sanitize_app_name ("My Game! ".toList) = "My Game".toList
    ∧ ("My Game! ".toList).filter allowedLogChar = "My Game ".toList
    ∧ sanitize_app_name ("My Game! ".toList) ≠ ("My Game! ".toList).filter allowedLogChar := by
  decide

theorem takeWhile_all {α : Type} (p : α → Bool) :
    ∀ l : List α, (l.takeWhile p).all p = true := by
  intro l
  induction l with
  | nil => rfl
  | cons a t ih =>
    cases h : p a with
    | true => simp [List.takeWhile_cons, h, ih]
    | false => simp [List.takeWhile_cons, h]

/-- Claim C9 amended: the sanitizer keeps exactly the alphanumeric, space,
hyphen and underscore characters and then strips trailing whitespace from
the result; on the literal application name with a colon and an exclamation
mark it yields the claimed sanitized name. -/
theorem sanitize_strips_then_rstrips :
    (∀ s : PyStr, ∃ t : PyStr,
        s.filter allowedLogChar = sanitize_app_name s ++ t ∧ t.all isPySpace = true)
    ∧ sanitize_app_name ("My Game: Deluxe!".toList) = "My Game Deluxe".toList := by
  constructor
  · intro s
    refine ⟨((s.filter allowedLogChar).reverse.takeWhile isPySpace).reverse, ?_, ?_⟩
    · unfold sanitize_app_name pyRStrip
      conv_lhs => rw [← (s.filter allowedLogChar).reverse_reverse,
        ← List.takeWhile_append_dropWhile (p := isPySpace)
          (l := (s.filter allowedLogChar).reverse)]
      rw [List.reverse_append]
    · rw [List.all_reverse]
      exact takeWhile_all isPySpace _
  · decide

/-! ## Log-handle lifecycle theorem -/

/-- Claim C2 (refuted by the code): launch_wine_application never closes the
log handle.  On the failing path where the log file opens and the banner
writes succeed but the spawn raises, the exception propagates with the
handle opened and not closed; the success path also returns with the handle
open (stored on the process object), and no caller ever closes it. -/
theorem launch_log_handle_leaked :
    launch_wine_application_logflow true true false
      = { raised := true, logOpened := true, logClosed := false }
    ∧ launch_wine_application_logflow true true true
      = { raised := false, logOpened := true, logClosed := false } := by
  decide

/-! ## Controller wait-loop theorems -/

theorem unpack_mkAxisEvent (ts n : Nat) (v : Int)
    (hlo : -32768 ≤ v) (hhi : v < 32768) :
    (unpack_IhBB (mkAxisEvent ts n v)).value = v
    ∧ (unpack_IhBB (mkAxisEvent ts n v)).etype = 2
    ∧ (unpack_IhBB (mkAxisEvent ts n v)).number = n := by
  refine ⟨?_, rfl, rfl⟩
  have hnn : (0 : Int) ≤ v % 65536 := Int.emod_nonneg v (by decide)
  have hcast : (((v % 65536).toNat : Int)) = v % 65536 := Int.toNat_of_nonneg hnn
  show decodeS16 ((v % 65536).toNat % 256 + 256 * ((v % 65536).toNat / 256)) = v
  rw [Nat.mod_add_div]
  unfold decodeS16
  by_cases hlt : (v % 65536).toNat < 32768
  · rw [if_pos hlt]
    omega
  · rw [if_neg hlt]
    omega

/-- Claim C3 counterexample: a session whose first read returns a
three-byte (short) record ends the read loop immediately, yet the loop
yields the very same None outcome that a pure timeout (bound elapsed, no
qualifying input) yields — the two outcomes are not distinguishable. -/
theorem short_read_indistinguishable_from_timeout :
    waitLoop [] 5 [[0, 0, 0]] = none
    ∧ waitLoop [] 0 [] = none
    ∧ waitLoop [] 5 [[0, 0, 0]] = waitLoop [] 0 [] := by
  decide

/-- Claim C3 amended: a read shorter than 8 bytes ends the wait loop
immediately (before the timeout bound elapses), but the session returns the
same None (no-input) result a timeout produces, not a distinct
disconnect condition. -/
theorem short_read_ends_loop_with_none :
    (∀ (axes : List (Nat × Int)) (fuel : Nat) (ev : List Nat) (reads : List (List Nat)),
        ev.length < 8 → waitLoop axes (fuel + 1) (ev :: reads) = none)
    ∧ (∀ (axes : List (Nat × Int)) (reads : List (List Nat)), waitLoop axes 0 reads = none) := by
  constructor
  · intro axes fuel ev reads h
    have hstep : waitStep axes ev = .ret none := by
      unfold waitStep
      rw [if_pos h]
    simp only [waitLoop]
    rw [hstep]
  · intro axes reads
    rfl

/-- Witness for the amended C3 statement on a concrete one-byte read. -/
theorem short_read_ends_loop_with_none_witness :
    waitLoop [] 3 [[0]] = none :=
  short_read_ends_loop_with_none.1 [] 2 [0] [] (by decide)

/-- Claim C6: when an axis event arrives for an axis whose recorded initial
value is v0, carrying a value v1 with |v1 - v0| above the threshold, the
loop returns the axis token immediately, and its direction suffix is +
exactly when v1 > v0 and - exactly when v1 < v0. -/
theorem axis_direction_sign (axes : List (Nat × Int)) (fuel ts n : Nat)
    (reads : List (List Nat)) (v0 v1 : Int)
    (hn : n < 256) (hlo : -32768 ≤ v1) (hhi : v1 < 32768)
    (hv0 : axesGet axes n = some v0)
    (hthr : axis_threshold < (v1 - v0).natAbs) :
    waitLoop axes (fuel + 1) (mkAxisEvent ts n v1 :: reads)
      = some (.axis (('a' :: pyFmtNat n) ++ [if v1 < v0 then '-' else '+']))
    ∧ ((if v1 < v0 then '-' else '+') = '+' ↔ v0 < v1)
    ∧ ((if v1 < v0 then '-' else '+') = '-' ↔ v1 < v0) := by
  obtain ⟨hval, hty, hnum⟩ := unpack_mkAxisEvent ts n v1 hlo hhi
  have hne : v1 ≠ v0 := by
    intro he
    rw [he] at hthr
    simp [axis_threshold] at hthr
  refine ⟨?_, ?_, ?_⟩
  · have hstep : waitStep axes (mkAxisEvent ts n v1)
        = .ret (some (.axis (('a' :: pyFmtNat n) ++ [if v1 < v0 then '-' else '+']))) := by
      have hlen : (mkAxisEvent ts n v1).length = 8 := rfl
      unfold waitStep
      rw [hlen, if_neg (by decide : ¬ (8 : Nat) < 8), if_neg (by decide : ¬ (8 : Nat) < 8)]
      unfold waitStepDecoded
      rw [hty, hval, hnum]
      rw [if_neg (by decide : ¬ ((2 : Nat) &&& JS_EVENT_INIT ≠ 0))]
      rw [if_neg (show ¬ ((2 : Nat) = JS_EVENT_BUTTON ∧ v1 = 1) from
        fun hx => absurd hx.1 (by decide))]
      rw [if_pos (by decide : (2 : Nat) = JS_EVENT_AXIS)]
      rw [hv0]
      show (if axis_threshold < (v1 - v0).natAbs
            then StepRes.ret (some (WaitRes.axis (('a' :: pyFmtNat n) ++ [if v1 < v0 then '-' else '+'])))
            else StepRes.cont axes)
          = StepRes.ret (some (WaitRes.axis (('a' :: pyFmtNat n) ++ [if v1 < v0 then '-' else '+'])))
      rw [if_pos hthr]
    simp only [waitLoop]
    rw [hstep]
  · constructor
    · intro h
      by_cases hlt : v1 < v0
      · rw [if_pos hlt] at h
        exact absurd h (by decide)
      · omega
    · intro h
      rw [if_neg (by omega : ¬ v1 < v0)]
  · constructor
    · intro h
      by_cases hlt : v1 < v0
      · exact hlt
      · rw [if_neg hlt] at h
        exact absurd h (by decide)
    · intro h
      rw [if_pos h]

/-- Witness for C6: recorded initial value 1000, new value 20000 — the
returned token carries the + suffix. -/
theorem axis_direction_sign_witness :
    waitLoop [(2, 1000)] 1 [mkAxisEvent 0 2 20000]
      = some (.axis (('a' :: pyFmtNat 2) ++ ['+'])) := by
  have h := (axis_direction_sign [(2, 1000)] 0 0 2 [] 1000 20000
      (by decide) (by decide) (by decide) (by decide) (by decide)).1
  rw [if_neg (by decide : ¬ (20000 : Int) < 1000)] at h
  exact h

/-- Claim C10: the first non-init event of an axis that was not seeded by
an init-replay event is compared against an initial position of 0 — with
|value| above the threshold the loop immediately returns the axis token
signed relative to zero — and in the same step the event's value is
recorded as that axis's initial position for the rest of the session. -/
theorem first_axis_compared_to_zero (axes : List (Nat × Int)) (fuel ts n : Nat)
    (reads : List (List Nat)) (v : Int)
    (hn : n < 256) (hlo : -32768 ≤ v) (hhi : v < 32768)
    (hnone : axesGet axes n = none) :
    waitLoop axes (fuel + 1) (mkAxisEvent ts n v :: reads)
      = if axis_threshold < (v - 0).natAbs
        then some (.axis (('a' :: pyFmtNat n) ++ [if v < 0 then '-' else '+']))
        else waitLoop (axesSet axes n v) fuel reads := by
  obtain ⟨hval, hty, hnum⟩ := unpack_mkAxisEvent ts n v hlo hhi
  have hstep : waitStep axes (mkAxisEvent ts n v)
      = if axis_threshold < (v - 0).natAbs
        then .ret (some (.axis (('a' :: pyFmtNat n) ++ [if v < 0 then '-' else '+'])))
        else .cont (axesSet axes n v) := by
    have hlen : (mkAxisEvent ts n v).length = 8 := rfl
    unfold waitStep
    rw [hlen, if_neg (by decide : ¬ (8 : Nat) < 8), if_neg (by decide : ¬ (8 : Nat) < 8)]
    unfold waitStepDecoded
    rw [hty, hval, hnum]
    rw [if_neg (by decide : ¬ ((2 : Nat) &&& JS_EVENT_INIT ≠ 0))]
    rw [if_neg (show ¬ ((2 : Nat) = JS_EVENT_BUTTON ∧ v = 1) from
      fun hx => absurd hx.1 (by decide))]
    rw [if_pos (by decide : (2 : Nat) = JS_EVENT_AXIS)]
    rw [hnone]
  simp only [waitLoop]
  rw [hstep]
  by_cases hthr : axis_threshold < (v - 0).natAbs
  · rw [if_pos hthr, if_pos hthr]
  · rw [if_neg hthr, if_neg hthr]

/-- Witness for C10: the first event of axis 2 carries value 20000, is
compared against 0 and immediately yields the + token. -/
theorem first_axis_compared_to_zero_witness :
    waitLoop [] 2 [mkAxisEvent 0 2 20000]
      = some (.axis (('a' :: pyFmtNat 2) ++ ['+'])) := by
  have h := first_axis_compared_to_zero [] 1 0 2 [] 20000
      (by decide) (by decide) (by decide) rfl
  rw [if_pos (by decide : axis_threshold < ((20000 : Int) - 0).natAbs),
    if_neg (by decide : ¬ (20000 : Int) < 0)] at h
  exact h

theorem waitStepDecoded_ret_button (axes : List (Nat × Int)) (e : JsEvent) (n : Nat)
    (h : waitStepDecoded axes e = .ret (some (.button n))) :
    e.etype = JS_EVENT_BUTTON ∧ e.etype &&& JS_EVENT_INIT = 0
    ∧ e.value = 1 ∧ e.number = n := by
  unfold waitStepDecoded at h
  by_cases h1 : e.etype &&& JS_EVENT_INIT ≠ 0
  · rw [if_pos h1] at h
    exact StepRes.noConfusion h
  rw [if_neg h1] at h
  by_cases h2 : e.etype = JS_EVENT_BUTTON ∧ e.value = 1
  · rw [if_pos h2] at h
    have hb : WaitRes.button e.number = .button n := Option.some.inj (StepRes.ret.inj h)
    exact ⟨h2.1, not_not.mp h1, h2.2, WaitRes.button.inj hb⟩
  rw [if_neg h2] at h
  by_cases h3 : e.etype = JS_EVENT_AXIS
  · rw [if_pos h3] at h
    cases hg : axesGet axes e.number with
    | some v0 =>
      rw [hg] at h
      have h5 : (if axis_threshold < (e.value - v0).natAbs
          then StepRes.ret (some (WaitRes.axis (('a' :: pyFmtNat e.number)
            ++ [if e.value < v0 then '-' else '+'])))
          else StepRes.cont axes) = .ret (some (.button n)) := h
      by_cases h4 : axis_threshold < (e.value - v0).natAbs
      · rw [if_pos h4] at h5
        exact absurd (Option.some.inj (StepRes.ret.inj h5))
          (fun hx => WaitRes.noConfusion hx)
      · rw [if_neg h4] at h5
        exact StepRes.noConfusion h5
    | none =>
      rw [hg] at h
      have h5 : (if axis_threshold < (e.value - 0).natAbs
          then StepRes.ret (some (WaitRes.axis (('a' :: pyFmtNat e.number)
            ++ [if e.value < 0 then '-' else '+'])))
          else StepRes.cont (axesSet axes e.number e.value)) = .ret (some (.button n)) := h
      by_cases h4 : axis_threshold < (e.value - 0).natAbs
      · rw [if_pos h4] at h5
        exact absurd (Option.some.inj (StepRes.ret.inj h5))
          (fun hx => WaitRes.noConfusion hx)
      · rw [if_neg h4] at h5
        exact StepRes.noConfusion h5
  · rw [if_neg h3] at h
    exact StepRes.noConfusion h

theorem waitStep_ret_button (axes : List (Nat × Int)) (ev : List Nat) (n : Nat)
    (h : waitStep axes ev = .ret (some (.button n))) :
    ev.length = 8 ∧ (unpack_IhBB ev).etype = JS_EVENT_BUTTON
    ∧ (unpack_IhBB ev).etype &&& JS_EVENT_INIT = 0
    ∧ (unpack_IhBB ev).value = 1 ∧ (unpack_IhBB ev).number = n := by
  unfold waitStep at h
  by_cases h1 : ev.length < 8
  · rw [if_pos h1] at h
    exact absurd (StepRes.ret.inj h) (fun hx => Option.noConfusion hx)
  rw [if_neg h1] at h
  by_cases h2 : 8 < ev.length
  · rw [if_pos h2] at h
    exact absurd (StepRes.ret.inj h) (fun hx => Option.noConfusion hx)
  rw [if_neg h2] at h
  have hlen : ev.length = 8 := by omega
  exact ⟨hlen, waitStepDecoded_ret_button axes _ n h⟩

theorem waitLoop_button_origin :
    ∀ (reads : List (List Nat)) (axes : List (Nat × Int)) (fuel n : Nat),
      waitLoop axes fuel reads = some (.button n) →
      ∃ ev ∈ reads, ev.length = 8 ∧ (unpack_IhBB ev).etype = JS_EVENT_BUTTON
        ∧ (unpack_IhBB ev).etype &&& JS_EVENT_INIT = 0
        ∧ (unpack_IhBB ev).value = 1 ∧ (unpack_IhBB ev).number = n := by
  intro reads
  induction reads with
  | nil =>
    intro axes fuel n h
    cases fuel with
    | zero => exact Option.noConfusion h
    | succ f => exact Option.noConfusion h
  | cons ev rest ih =>
    intro axes fuel n h
    cases fuel with
    | zero => exact Option.noConfusion h
    | succ f =>
      simp only [waitLoop] at h
      cases hs : waitStep axes ev with
      | ret r =>
        rw [hs] at h
        have hr : r = some (.button n) := h
        have hws : waitStep axes ev = .ret (some (.button n)) := by rw [hs, hr]
        exact ⟨ev, by simp, waitStep_ret_button axes ev n hws⟩
      | cont a2 =>
        rw [hs] at h
        have h2 : waitLoop a2 f rest = some (.button n) := h
        obtain ⟨ev2, hmem, hp⟩ := ih a2 f n h2
        exact ⟨ev2, by simp [hmem], hp⟩

/-- Claim C8: the loop returns a ('button', N) result only for an event
record that is a full 8 bytes, is not an init-replay event, has the button
event type and carries value 1 (a press transition, never a release), and
wait_for_input leaves the session's device handle open on return. -/
theorem button_result_press_only :
    (∀ (reads : List (List Nat)) (axes : List (Nat × Int)) (fuel n : Nat),
        waitLoop axes fuel reads = some (.button n) →
        ∃ ev ∈ reads, ev.length = 8 ∧ (unpack_IhBB ev).etype = JS_EVENT_BUTTON
          ∧ (unpack_IhBB ev).etype &&& JS_EVENT_INIT = 0
          ∧ (unpack_IhBB ev).value = 1 ∧ (unpack_IhBB ev).number = n)
    ∧ (∀ (s : CISession) (fuel : Nat) (reads : List (List Nat)),
        (wait_for_input s fuel reads).2.fdOpen = true) := by
  constructor
  · exact waitLoop_button_origin
  · intro s fuel reads
    by_cases hs : s.fdOpen
    · simp [wait_for_input, hs]
    · simp [wait_for_input, hs]

/-- Witness for C8: a concrete press event for button 3 yields the button
result, the origin event attributes are recovered, and a session that was
closed before the call is open after it. -/
theorem button_result_press_only_witness :
    waitLoop [] 5 [[0, 0, 0, 0, 1, 0, 1, 3]] = some (.button 3)
    ∧ (∃ ev ∈ [[0, 0, 0, 0, 1, 0, 1, 3]], ev.length = 8
        ∧ (unpack_IhBB ev).etype = JS_EVENT_BUTTON
        ∧ (unpack_IhBB ev).etype &&& JS_EVENT_INIT = 0
        ∧ (unpack_IhBB ev).value = 1 ∧ (unpack_IhBB ev).number = 3)
    ∧ (wait_for_input { fdOpen := false } 5 [[0, 0, 0, 0, 1, 0, 1, 3]]).2.fdOpen = true := by
  refine ⟨by decide, ?_, ?_⟩
  · exact button_result_press_only.1 [[0, 0, 0, 0, 1, 0, 1, 3]] [] 5 3 (by decide)
  · exact button_result_press_only.2 { fdOpen := false } 5 [[0, 0, 0, 0, 1, 0, 1, 3]]

/-! ## Device-GUID theorems -/

theorem md5_length (msg : List Nat) : (md5 msg).length = 16 := by
  simp [md5, wordBytes]

theorem bytesToHex_length : ∀ l : List Nat, (bytesToHex l).length = 2 * l.length := by
  intro l
  induction l with
  | nil => rfl
  | cons b t ih =>
    simp only [bytesToHex, byteHex, List.length_append, List.length_cons, ih]
    simp
    omega

theorem hexDigit_isHex (n : Nat) : isHexDigitChar (hexDigit n) = true := by
  have h16 : n % 16 < 16 := Nat.mod_lt n (by decide)
  unfold hexDigit isHexDigitChar
  generalize hm : n % 16 = m
  rw [hm] at h16
  interval_cases m <;> decide

theorem bytesToHex_all_hex : ∀ l : List Nat, (bytesToHex l).all isHexDigitChar = true := by
  intro l
  induction l with
  | nil => rfl
  | cons b t ih =>
    simp [bytesToHex, byteHex, List.all_append, hexDigit_isHex, ih]

/-- Claim C7: with vendor/product metadata unavailable, the computed GUID
is the MD5 hexdigest of the device name truncated to 32 characters — a
32-character lowercase-hexadecimal string — and the computation is a
function of the device name alone: equal names give equal GUIDs. -/
theorem fallback_guid_hex32 (nameBytes : List Nat) :
    (get_device_guid none nameBytes).length = 32
    ∧ (get_device_guid none nameBytes).all isHexDigitChar = true
    ∧ (∀ other : List Nat, nameBytes = other →
        get_device_guid none nameBytes = get_device_guid none other) := by
  have hlen32 : (md5hexdigest nameBytes).length = 32 := by
    unfold md5hexdigest
    rw [bytesToHex_length, md5_length]
  have hfull : (md5hexdigest nameBytes).take 32 = md5hexdigest nameBytes := by
    rw [show (32 : Nat) = (md5hexdigest nameBytes).length from hlen32.symm, List.take_length]
  refine ⟨?_, ?_, ?_⟩
  · show (fallback_guid nameBytes).length = 32
    unfold fallback_guid
    rw [hfull, hlen32]
  · show (fallback_guid nameBytes).all isHexDigitChar = true
    unfold fallback_guid
    rw [hfull]
    exact bytesToHex_all_hex (md5 nameBytes)
  · intro other h
    rw [h]

/-- Witness for C7 at the concrete default device name. -/
theorem fallback_guid_hex32_witness :
    (get_device_guid none ("Unknown Controller".toList.map Char.toNat)).length = 32
    ∧ (get_device_guid none
        ("Unknown Controller".toList.map Char.toNat)).all isHexDigitChar = true
    ∧ get_device_guid none ("Unknown Controller".toList.map Char.toNat)
        = get_device_guid none ("Unknown Controller".toList.map Char.toNat) := by
  have h := fallback_guid_hex32 ("Unknown Controller".toList.map Char.toNat)
  exact ⟨h.1, h.2.1, h.2.2 _ rfl⟩
